import Mathlib

/-!
Verification of `tweet_sentiment_to_csv.py` (marrowe/tweet-sentiment).

The program is a four-stage sequential pipeline: a Collector that queries an
external search service and extracts six fields per result, a Deduplicator
(a set of field tuples), a Filter+Scorer that keeps records whose location
or description field contains a whole-word case-insensitive filter term and
attaches sentiment scores, and a Writer that serializes the result as CSV.

External collaborators (the Tweepy client, the TextBlob sentiment model and
the float formatting used by the csv module) are treated as opaque
parameters, per the specification. Regular-expression matching of the
pattern backslash-b term backslash-b with the IGNORECASE flag is embedded
over lists of Unicode code points with ASCII case folding; all filter terms
and all inputs of interest are ASCII.
-/

namespace TweetCSV

/-! ## Word-boundary, case-insensitive search
Embeds Python `re.search(r'\b' + f + r'\b', field, re.I)` for the literal
terms in `filter_terms` (none of them contains a regex metacharacter).
Strings are viewed as their lists of Unicode code points. -/

/-- ASCII case folding on a code point, the model of `re.I` matching. -/
def lowerCode (n : Nat) : Nat := if 65 ≤ n ∧ n ≤ 90 then n + 32 else n

/-- Word-character test (`\w`): ASCII letters, digits and underscore. -/
def isWordCode (n : Nat) : Bool :=
  decide ((48 ≤ n ∧ n ≤ 57) ∨ (65 ≤ n ∧ n ≤ 90) ∨ (97 ≤ n ∧ n ≤ 122) ∨ n = 95)

/-- Case-insensitive comparison of a term against the front of a field. -/
def ciPrefixAt : List Nat → List Nat → Bool
  | [], _ => true
  | _ :: _, [] => false
  | a :: t, b :: s => (lowerCode a == lowerCode b) && ciPrefixAt t s

/-- Whether the character at index `i` of `s` is a word character
(out of range counts as not a word character). -/
def wordAt (s : List Nat) (i : Nat) : Bool :=
  match s[i]? with
  | some c => isWordCode c
  | none => false

/-- Whether the character just before index `i` is a word character
(the start of the string counts as not a word character). -/
def prevWordAt (s : List Nat) : Nat → Bool
  | 0 => false
  | j + 1 => wordAt s j

/-- Python `\b`: a word boundary sits at `i` when exactly one of the
adjacent positions holds a word character. -/
def boundaryAt (s : List Nat) (i : Nat) : Bool :=
  prevWordAt s i != wordAt s i

/-- The pattern `\b t \b` matches `s` at position `i`. -/
def matchAt (t s : List Nat) (i : Nat) : Bool :=
  boundaryAt s i && ciPrefixAt t (s.drop i) && boundaryAt s (i + t.length)

/-- `re.search`: the pattern matches at some position of the field. -/
def wbSearch (t s : List Nat) : Bool :=
  (List.range (s.length + 1)).any (fun i => matchAt t s i)

/-- Code points of a string. -/
def strCodes (s : String) : List Nat := s.data.map Char.toNat

/-- The per-term test of `filter` in the source:
`re.search(r'\b' + f + r'\b', field, re.I)` viewed as a Boolean. -/
def reSearchCI (t s : String) : Bool := wbSearch (strCodes t) (strCodes s)

/-! ### Case-insensitivity of the matcher -/

theorem lowerCode_lowerCode (n : Nat) : lowerCode (lowerCode n) = lowerCode n := by
  unfold lowerCode
  by_cases h : 65 ≤ n ∧ n ≤ 90
  · rw [if_pos h, if_neg (by omega)]
  · rw [if_neg h, if_neg h]

theorem isWordCode_lowerCode (n : Nat) : isWordCode (lowerCode n) = isWordCode n := by
  unfold isWordCode lowerCode
  by_cases h : 65 ≤ n ∧ n ≤ 90
  · rw [if_pos h, decide_eq_decide]
    omega
  · rw [if_neg h]

theorem ciPrefixAt_map_lower_right (t : List Nat) :
    ∀ s : List Nat, ciPrefixAt t (s.map lowerCode) = ciPrefixAt t s := by
  induction t with
  | nil => intro s; rfl
  | cons a t ih =>
    intro s
    cases s with
    | nil => rfl
    | cons b s => simp [ciPrefixAt, ih, lowerCode_lowerCode]

theorem ciPrefixAt_map_lower_left (t : List Nat) :
    ∀ s : List Nat, ciPrefixAt (t.map lowerCode) s = ciPrefixAt t s := by
  induction t with
  | nil => intro s; rfl
  | cons a t ih =>
    intro s
    cases s with
    | nil => rfl
    | cons b s => simp [ciPrefixAt, ih, lowerCode_lowerCode]

theorem wordAt_map_lower (s : List Nat) (i : Nat) :
    wordAt (s.map lowerCode) i = wordAt s i := by
  unfold wordAt
  rw [List.getElem?_map]
  cases s[i]? with
  | none => rfl
  | some c => simp [isWordCode_lowerCode]

theorem prevWordAt_map_lower (s : List Nat) (i : Nat) :
    prevWordAt (s.map lowerCode) i = prevWordAt s i := by
  cases i with
  | zero => rfl
  | succ j => simp only [prevWordAt, wordAt_map_lower]

theorem boundaryAt_map_lower (s : List Nat) (i : Nat) :
    boundaryAt (s.map lowerCode) i = boundaryAt s i := by
  unfold boundaryAt
  rw [prevWordAt_map_lower, wordAt_map_lower]

theorem matchAt_map_lower_right (t s : List Nat) (i : Nat) :
    matchAt t (s.map lowerCode) i = matchAt t s i := by
  unfold matchAt
  rw [boundaryAt_map_lower, boundaryAt_map_lower, ← List.map_drop,
    ciPrefixAt_map_lower_right]

theorem matchAt_map_lower_left (t s : List Nat) (i : Nat) :
    matchAt (t.map lowerCode) s i = matchAt t s i := by
  unfold matchAt
  rw [ciPrefixAt_map_lower_left, List.length_map]

/-- Folding the case of the field does not change whether the pattern
matches: the matcher is case-insensitive in the field. -/
theorem wbSearch_map_lower_right (t s : List Nat) :
    wbSearch t (s.map lowerCode) = wbSearch t s := by
  unfold wbSearch
  rw [List.length_map]
  simp only [matchAt_map_lower_right]

/-- Folding the case of the term does not change whether the pattern
matches: the matcher is case-insensitive in the term. -/
theorem wbSearch_map_lower_left (t s : List Nat) :
    wbSearch (t.map lowerCode) s = wbSearch t s := by
  unfold wbSearch
  simp only [matchAt_map_lower_left]

end TweetCSV

namespace TweetCSV

/-- The compiled-in filter terms (`filter_terms` in the source). -/
def filter_terms : List String :=
  ["dc", "DMV", "georgetown", "gtown", "GU", "37th and O", "202"]

/-! ## Configuration surface (`argparse` section of the source)
The script declares exactly two optional arguments:
`parser.add_argument('-number', '-n', dest="n", type=int, default="1000")` and
`parser.add_argument('-file', '-f', dest="f", type=str, default="your_tweets.csv")`.
Argparse applies the `type=int` conversion to the string default, so the
effective default for `n` is the integer 1000. -/

/-- One declared command-line argument: its flag spellings, destination
attribute and raw default string as written in the source. -/
structure ArgSpec where
  flags : List String
  dest : String
  rawDefault : String
deriving DecidableEq

/-- The two `add_argument` calls of the source, in order. -/
def cliArgs : List ArgSpec :=
  [⟨["-number", "-n"], "n", "1000"⟩, ⟨["-file", "-f"], "f", "your_tweets.csv"⟩]

/-- The parsed options object (`parser` after `parse_args()`): the item
count `n` and the output path `f`. -/
structure Config where
  n : Int
  f : String
deriving DecidableEq

/-- Defaults: 1000 items, output path `your_tweets.csv`. -/
def defaultConfig : Config := ⟨1000, "your_tweets.csv"⟩

/-- Command-line parsing, modelled on flag-value pairs: each occurrence of
a declared flag overrides the corresponding destination. -/
def parseArgs (args : List (String × String)) : Config :=
  args.foldl
    (fun c kv =>
      if kv.1 = "-number" ∨ kv.1 = "-n" then { c with n := (kv.2.toInt?).getD c.n }
      else if kv.1 = "-file" ∨ kv.1 = "-f" then { c with f := kv.2 }
      else c)
    defaultConfig

/-! ## Data model -/

/-- The compiled-in search queries (`my_queries` in the source). -/
def my_queries : List String :=
  ["southern accent -filter:retweets", "new york accent -filter:retweets",
   "californian accent -filter:retweets"]

/-- The profile fields extracted from the author object
(`metadata_fields` in the source). -/
def metadata_fields : List String :=
  ["created_at", "name", "screen_name", "location", "description"]

/-- The author-profile subobject of a raw status (`status['user']`).
Each field may be absent (`None`), hence `Option`. -/
structure RawUser where
  created_at : Option String
  name : Option String
  screen_name : Option String
  location : Option String
  description : Option String
deriving DecidableEq

/-- One raw search result (`status._json`): the author profile plus the
full text of the post. -/
structure RawStatus where
  user : RawUser
  full_text : Option String
deriving DecidableEq

/-- `user.get(f)` for the five names in `metadata_fields`. -/
def userGet (u : RawUser) (f : String) : Option String :=
  if f = "created_at" then u.created_at
  else if f = "name" then u.name
  else if f = "screen_name" then u.screen_name
  else if f = "location" then u.location
  else if f = "description" then u.description
  else none

/-- The record produced by `get_data`: the six extracted fields. The
source represents it as the tuple of the six key-value pairs of an
insertion-ordered dictionary; `items` below recovers that view. -/
structure ExtractedRecord where
  created_at : Option String
  name : Option String
  screen_name : Option String
  location : Option String
  description : Option String
  text : Option String
deriving DecidableEq

/-- The ordered key-value pairs of the record, exactly the tuple that
`get_data` returns (dict built over `metadata_fields` and then updated
with the `text` key, preserving insertion order). -/
def ExtractedRecord.items (r : ExtractedRecord) : List (String × Option String) :=
  [("created_at", r.created_at), ("name", r.name), ("screen_name", r.screen_name),
   ("location", r.location), ("description", r.description), ("text", r.text)]

/-- `get_data`: builds the dict `{f: user.get(f) for f in metadata_fields}`
updated with `{'text': status.get('full_text')}`. -/
def get_data (status : RawStatus) : ExtractedRecord :=
  { created_at := userGet status.user "created_at"
    name := userGet status.user "name"
    screen_name := userGet status.user "screen_name"
    location := userGet status.user "location"
    description := userGet status.user "description"
    text := status.full_text }

/-! ## Collector and Deduplicator (`scraper`) -/

/-- Adding a list of records to the working set, one `all_tweets.add(tuple(t))`
at a time. -/
def addAll (tweets : List ExtractedRecord) (s : Finset ExtractedRecord) :
    Finset ExtractedRecord :=
  tweets.foldl (fun acc t => insert t acc) s

/-- `scraper`: for each query, fetches up to `cfg.n` items from the
external search service (the opaque `Cursor(api.search, ...).items(parser.n)`
call, modelled by the parameter `service`), extracts their fields with
`get_data`, and accumulates everything into one deduplicating set. -/
def scraper (service : String → Int → List RawStatus) (cfg : Config)
    (queries : List String) : Finset ExtractedRecord :=
  queries.foldl
    (fun all_tweets search => addAll ((service search cfg.n).map get_data) all_tweets)
    ∅

theorem mem_addAll (x : ExtractedRecord) (l : List ExtractedRecord) :
    ∀ s : Finset ExtractedRecord, x ∈ addAll l s ↔ x ∈ l ∨ x ∈ s := by
  induction l with
  | nil => intro s; simp [addAll]
  | cons t ts ih =>
    intro s
    show x ∈ addAll ts (insert t s) ↔ _
    rw [ih]
    simp only [Finset.mem_insert, List.mem_cons]
    tauto

theorem mem_scraper (service : String → Int → List RawStatus) (cfg : Config)
    (x : ExtractedRecord) :
    ∀ queries : List String,
      x ∈ scraper service cfg queries ↔
        ∃ q ∈ queries, ∃ st ∈ service q cfg.n, get_data st = x := by
  have step : ∀ (queries : List String) (s : Finset ExtractedRecord),
      x ∈ queries.foldl
          (fun all_tweets search => addAll ((service search cfg.n).map get_data) all_tweets) s ↔
        (∃ q ∈ queries, ∃ st ∈ service q cfg.n, get_data st = x) ∨ x ∈ s := by
    intro queries
    induction queries with
    | nil => intro s; simp
    | cons q qs ih =>
      intro s
      show x ∈ qs.foldl _ (addAll ((service q cfg.n).map get_data) s) ↔ _
      rw [ih, mem_addAll]
      simp only [List.mem_map, List.mem_cons]
      constructor
      · rintro (h | (⟨st, hst, rfl⟩ | hs))
        · rcases h with ⟨q', hq', h⟩
          exact Or.inl ⟨q', Or.inr hq', h⟩
        · exact Or.inl ⟨q, Or.inl rfl, st, hst, rfl⟩
        · exact Or.inr hs
      · rintro (⟨q', hq' | hq', h⟩ | hs)
        · subst hq'; exact Or.inr (Or.inl (by simpa using h))
        · exact Or.inl ⟨q', hq', h⟩
        · exact Or.inr (Or.inr hs)
  intro queries
  rw [scraper, step]
  simp

/-! ## Filter + Scorer (`filter` and `sentiment_saver`) -/

/-- The error raised by `re.search` when the subject is `None`
(`TypeError: expected string or bytes-like object`). -/
inductive PyError
  | typeError
deriving DecidableEq

/-- `any(re.search(r'\b' + f + r'\b', v, re.I) for f in terms)`.
The generator is evaluated lazily: with no terms it yields `False`
without touching the field; with at least one term, a `None` field makes
the first `re.search` call raise `TypeError`. -/
def anyTermMatches : List String → Option String → Except PyError Bool
  | [], _ => .ok false
  | _ :: _, none => .error .typeError
  | ts, some s => .ok (ts.any (fun t => reSearchCI t s))

/-- The condition of the `if` in `filter`: the location check `or` the
description check, with Python short-circuit evaluation (the description
check only runs when the location check yields `False`).
`tweet[3][1]` is the location value and `tweet[4][1]` the description
value of the six-pair tuple. -/
def tweetPasses (r : ExtractedRecord) : Except PyError Bool := do
  let locMatch ← anyTermMatches filter_terms r.location
  if locMatch then pure true
  else anyTermMatches filter_terms r.description

/-- `sentiment_saver`: wraps the opaque TextBlob sentiment model `blob`,
returning the polarity and subjectivity scores of the text. -/
def sentiment_saver (blob : Option String → Rat × Rat) (individual_tweet : Option String) :
    Rat × Rat :=
  blob individual_tweet

/-- A surviving record: the dict built by `dict(tweet)` updated with the
`polarity` and `subjectivity` keys. -/
structure ScoredRow where
  extracted : ExtractedRecord
  polarity : Rat
  subjectivity : Rat
deriving DecidableEq

/-- Builds the scored dict for one passing tweet
(`current_tweet.update(sentiment_saver(current_tweet['text']))`). -/
def mkScored (blob : Option String → Rat × Rat) (r : ExtractedRecord) : ScoredRow :=
  ⟨r, (sentiment_saver blob r.text).1, (sentiment_saver blob r.text).2⟩

/-- The ordered key-value pairs of the scored dict: the six record pairs
followed by the two score pairs (dict update preserves insertion order).
String-valued and numeric cells are distinguished by the sum type. -/
def ScoredRow.items (r : ScoredRow) : List (String × (Option String ⊕ Rat)) :=
  (r.extracted.items.map (fun p => (p.1, Sum.inl p.2))) ++
    [("polarity", Sum.inr r.polarity), ("subjectivity", Sum.inr r.subjectivity)]

/-- `filter`: walks the deduplicated tweets in iteration order, keeps
those whose location or description matches a filter term, and scores
them. A `TypeError` from a pattern match aborts the whole loop. -/
def filter (blob : Option String → Rat × Rat) :
    List ExtractedRecord → Except PyError (List ScoredRow)
  | [] => .ok []
  | t :: ts => do
      let passes ← tweetPasses t
      let saved_tweets ← filter blob ts
      pure (if passes then mkScored blob t :: saved_tweets else saved_tweets)

/-- The location field matches some filter term (only meaningful for a
present field; `None` never reaches a successful comparison). -/
def locMatches (r : ExtractedRecord) : Bool :=
  match r.location with
  | some s => filter_terms.any (fun t => reSearchCI t s)
  | none => false

/-- The description field matches some filter term. -/
def descMatches (r : ExtractedRecord) : Bool :=
  match r.description with
  | some s => filter_terms.any (fun t => reSearchCI t s)
  | none => false

/-! ## Startup (`start_api`) -/

/-- The exception type raised by the external client
(`from tweepy import TweepError`). -/
inductive TweepError
  | mk

/-- The messages the script can print during startup. -/
inductive LogMsg
  | apiConnected
  | apiNotConnected
deriving DecidableEq

/-- The handle returned by
`API(auth, wait_on_rate_limit=True, wait_on_rate_limit_notify=True)`. -/
structure APIHandle where
  wait_on_rate_limit : Bool
  wait_on_rate_limit_notify : Bool
deriving DecidableEq

/-- `start_api`: attempts the external `auth.get_authorization_url()` call
(whose outcome is the opaque parameter `authResult`); a `TweepError` is
caught and a failure message printed, a success prints a success message;
either way the function falls through to construct and return the API
handle. Its return type is total: no outcome of the authentication call
escapes as an error. -/
def start_api (authResult : Except TweepError String) : APIHandle × LogMsg :=
  match authResult with
  | .ok _ => (⟨true, true⟩, .apiConnected)
  | .error _ => (⟨true, true⟩, .apiNotConnected)

/-! ## Writer (`write_to_csv`)
`csv.DictWriter(csvfile, fieldnames=fieldnames, lineterminator='\n')` with
the default dialect: delimiter comma, quote character the double quote,
QUOTE_MINIMAL quoting (a cell is quoted exactly when it contains the
delimiter, the quote character or a line break, with embedded quote
characters doubled), `None` written as the empty string, non-string
values through `str()` (the opaque parameter `numStr` for the two float
scores). A CSV parser for the same dialect is defined alongside to state
round-trip properties. -/

/-- The double-quote character. -/
def dq : Char := Char.ofNat 34

/-- A character forcing QUOTE_MINIMAL to quote the cell. -/
def isCsvSpecial (c : Char) : Bool := c == ',' || c == dq || c == '\n' || c == '\r'

/-- Doubling of embedded quote characters inside a quoted cell. -/
def escapeQuotes : List Char → List Char
  | [] => []
  | c :: cs => if c = dq then dq :: dq :: escapeQuotes cs else c :: escapeQuotes cs

/-- Serialization of one cell under QUOTE_MINIMAL. -/
def serializeCell (s : List Char) : List Char :=
  if s.any isCsvSpecial then dq :: (escapeQuotes s ++ [dq]) else s

/-- Comma-joining of serialized cells. -/
def joinComma : List (List Char) → List Char
  | [] => []
  | [c] => c
  | c :: cs => c ++ ',' :: joinComma cs

/-- One CSV row: the joined cells followed by the line terminator. -/
def serializeRowChars (cells : List (List Char)) : List Char :=
  joinComma (cells.map serializeCell) ++ ['\n']

/-- String-level row serialization. -/
def serializeRow (cells : List String) : String :=
  ⟨serializeRowChars (cells.map String.data)⟩

/-- Parser mode: inside an unquoted cell (or at a cell start), inside a
quoted cell, or just after a quote character inside a quoted cell. -/
inductive CsvMode
  | unq
  | quo
  | postq
deriving DecidableEq

/-- Parser state: mode, characters of the current cell, finished cells. -/
structure CsvState where
  mode : CsvMode
  cur : List Char
  acc : List (List Char)
deriving DecidableEq

/-- One step of the row parser. -/
def csvStep (st : CsvState) (c : Char) : CsvState :=
  match st.mode with
  | .unq =>
      if c = dq ∧ st.cur = [] then ⟨.quo, [], st.acc⟩
      else if c = ',' then ⟨.unq, [], st.acc ++ [st.cur]⟩
      else ⟨.unq, st.cur ++ [c], st.acc⟩
  | .quo =>
      if c = dq then ⟨.postq, st.cur, st.acc⟩
      else ⟨.quo, st.cur ++ [c], st.acc⟩
  | .postq =>
      if c = dq then ⟨.quo, st.cur ++ [dq], st.acc⟩
      else if c = ',' then ⟨.unq, [], st.acc ++ [st.cur]⟩
      else ⟨.quo, st.cur ++ [c], st.acc⟩

/-- Closing the parser: the pending cell is emitted. -/
def csvFinish (st : CsvState) : List (List Char) := st.acc ++ [st.cur]

/-- Removal of the single terminating newline of a serialized row. -/
def dropTrailingLF (cs : List Char) : List Char :=
  if cs.getLast? = some '\n' then cs.dropLast else cs

/-- Parsing one serialized CSV row back into its cells. -/
def parseRowChars (cs : List Char) : List (List Char) :=
  csvFinish ((dropTrailingLF cs).foldl csvStep ⟨.unq, [], []⟩)

/-- String-level row parsing. -/
def parseRow (s : String) : List String :=
  (parseRowChars s.data).map (fun l => ⟨l⟩)

/-- The writer header: `metadata_fields + ['text', 'polarity', 'subjectivity']`. -/
def fieldnames : List String := metadata_fields ++ ["text", "polarity", "subjectivity"]

/-- How the csv module renders one dict value: `None` as the empty
string, a string as itself, a float through `str()` (modelled by the
opaque `numStr`). -/
def cellToString (numStr : Rat → String) : Option String ⊕ Rat → String
  | .inl none => ""
  | .inl (some s) => s
  | .inr q => numStr q

/-- The cells of one data row, in `fieldnames` order, as `DictWriter`
emits them (each fieldname looked up in the row dict). -/
def rowCells (numStr : Rat → String) (row : ScoredRow) : List String :=
  fieldnames.map (fun f =>
    match row.items.lookup f with
    | some v => cellToString numStr v
    | none => "")

/-- `write_to_csv`: opens `parser.f` for writing and emits the header row
followed by one row per surviving record. The result models the pair
(path of the file opened for writing, full content written). -/
def write_to_csv (cfg : Config) (numStr : Rat → String) (final_tweets : List ScoredRow) :
    String × String :=
  (cfg.f,
   final_tweets.foldl (fun out row => out ++ serializeRow (rowCells numStr row))
     (serializeRow fieldnames))

/-- `main` after the Collector: filtering (in the iteration order
`tweetOrder` of the deduplicated set) followed by the Writer; a
`TypeError` raised inside `filter` aborts the run before anything is
written. -/
def runPipeline (blob : Option String → Rat × Rat) (numStr : Rat → String)
    (cfg : Config) (tweetOrder : List ExtractedRecord) :
    Except PyError (String × String) :=
  (filter blob tweetOrder).map (write_to_csv cfg numStr)

/-- The six field values of a record, in field order. -/
def recordFields (r : ExtractedRecord) : List (Option String) :=
  r.items.map Prod.snd

/-- One record serialized as a CSV row with the configuration of the
Writer (`None` rendered as the empty string by the csv module). -/
def recordRow (r : ExtractedRecord) : String :=
  serializeRow ((recordFields r).map (fun v => v.getD ""))

/-! ### Round-trip of the row serializer and parser -/

theorem foldl_csvStep_escape (cs : List Char) :
    ∀ cur acc, (escapeQuotes cs).foldl csvStep ⟨CsvMode.quo, cur, acc⟩ =
      ⟨CsvMode.quo, cur ++ cs, acc⟩ := by
  induction cs with
  | nil => intro cur acc; simp [escapeQuotes]
  | cons c cs ih =>
    intro cur acc
    by_cases h : c = dq
    · subst h
      rw [show escapeQuotes (dq :: cs) = dq :: dq :: escapeQuotes cs from by
        simp [escapeQuotes]]
      simp only [List.foldl_cons]
      rw [show csvStep ⟨CsvMode.quo, cur, acc⟩ dq = ⟨CsvMode.postq, cur, acc⟩ from by
        simp [csvStep]]
      rw [show csvStep ⟨CsvMode.postq, cur, acc⟩ dq = ⟨CsvMode.quo, cur ++ [dq], acc⟩ from by
        simp [csvStep]]
      rw [ih]
      simp
    · simp only [escapeQuotes, if_neg h, List.foldl_cons]
      rw [show csvStep ⟨CsvMode.quo, cur, acc⟩ c = ⟨CsvMode.quo, cur ++ [c], acc⟩ from by
        simp [csvStep, h]]
      rw [ih]
      simp

theorem foldl_csvStep_plain (cs : List Char) :
    ∀ cur acc, (∀ c ∈ cs, isCsvSpecial c = false) →
      cs.foldl csvStep ⟨CsvMode.unq, cur, acc⟩ = ⟨CsvMode.unq, cur ++ cs, acc⟩ := by
  induction cs with
  | nil => intro cur acc _; simp
  | cons c cs ih =>
    intro cur acc hs
    have hc : isCsvSpecial c = false := hs c (List.mem_cons_self c cs)
    have h1 : c ≠ ',' := by
      intro h; subst h; simp [isCsvSpecial] at hc
    have h2 : c ≠ dq := by
      intro h; subst h; simp [isCsvSpecial] at hc
    simp only [List.foldl_cons]
    rw [show csvStep ⟨CsvMode.unq, cur, acc⟩ c = ⟨CsvMode.unq, cur ++ [c], acc⟩ from by
      simp [csvStep, h1, h2]]
    rw [ih (cur ++ [c]) acc (fun x hx => hs x (List.mem_cons_of_mem c hx))]
    simp

theorem foldl_csvStep_cell (s : List Char) (acc : List (List Char)) :
    ∃ m, (m = CsvMode.unq ∨ m = CsvMode.postq) ∧
      (serializeCell s).foldl csvStep ⟨CsvMode.unq, [], acc⟩ = ⟨m, s, acc⟩ := by
  by_cases hq : s.any isCsvSpecial
  · refine ⟨CsvMode.postq, Or.inr rfl, ?_⟩
    rw [show serializeCell s = dq :: (escapeQuotes s ++ [dq]) from by
      simp [serializeCell, hq]]
    simp only [List.foldl_cons]
    rw [show csvStep ⟨CsvMode.unq, [], acc⟩ dq = ⟨CsvMode.quo, [], acc⟩ from by
      simp [csvStep]]
    rw [List.foldl_append, foldl_csvStep_escape]
    simp only [List.nil_append, List.foldl_cons, List.foldl_nil]
    simp [csvStep]
  · refine ⟨CsvMode.unq, Or.inl rfl, ?_⟩
    rw [show serializeCell s = s from by simp [serializeCell, hq]]
    have hall : ∀ c ∈ s, isCsvSpecial c = false := by
      intro c hc
      by_contra h
      exact hq (List.any_eq_true.mpr ⟨c, hc, by simpa using h⟩)
    rw [foldl_csvStep_plain s [] acc hall]
    simp

theorem csvStep_comma (m : CsvMode) (hm : m = CsvMode.unq ∨ m = CsvMode.postq)
    (cur : List Char) (acc : List (List Char)) :
    csvStep ⟨m, cur, acc⟩ ',' = ⟨CsvMode.unq, [], acc ++ [cur]⟩ := by
  have hne : (',' : Char) ≠ dq := by decide
  rcases hm with rfl | rfl
  · simp [csvStep, hne]
  · simp [csvStep, hne]

theorem foldl_csvStep_row (cells : List (List Char)) :
    cells ≠ [] →
    ∀ acc, csvFinish ((joinComma (cells.map serializeCell)).foldl csvStep
        ⟨CsvMode.unq, [], acc⟩) = acc ++ cells := by
  induction cells with
  | nil => intro h; exact absurd rfl h
  | cons c cells ih =>
    intro _ acc
    cases cells with
    | nil =>
      show csvFinish ((serializeCell c).foldl csvStep ⟨CsvMode.unq, [], acc⟩) = _
      obtain ⟨m, _, hm⟩ := foldl_csvStep_cell c acc
      rw [hm]
      rfl
    | cons c' cells' =>
      show csvFinish ((serializeCell c ++
        ',' :: joinComma ((c' :: cells').map serializeCell)).foldl csvStep
        ⟨CsvMode.unq, [], acc⟩) = _
      rw [List.foldl_append]
      obtain ⟨m, hmode, hm⟩ := foldl_csvStep_cell c acc
      rw [hm]
      simp only [List.foldl_cons]
      rw [csvStep_comma m hmode c acc]
      rw [ih (by simp) (acc ++ [c])]
      simp

theorem dropTrailingLF_concat (cs : List Char) : dropTrailingLF (cs ++ ['\n']) = cs := by
  unfold dropTrailingLF
  rw [List.getLast?_concat, if_pos rfl, List.dropLast_concat]

/-- Parsing inverts serialization at the level of character lists, for
any nonempty list of cells with arbitrary contents. -/
theorem parseRowChars_serializeRowChars (cells : List (List Char)) (hne : cells ≠ []) :
    parseRowChars (serializeRowChars cells) = cells := by
  unfold parseRowChars serializeRowChars
  rw [dropTrailingLF_concat, foldl_csvStep_row cells hne]
  rfl

/-- Parsing inverts serialization at the level of strings. -/
theorem parseRow_serializeRow (cells : List String) (hne : cells ≠ []) :
    parseRow (serializeRow cells) = cells := by
  unfold parseRow serializeRow
  rw [show (String.mk (serializeRowChars (cells.map String.data))).data =
    serializeRowChars (cells.map String.data) from rfl]
  rw [parseRowChars_serializeRowChars (cells.map String.data) (by simpa using hne)]
  rw [List.map_map]
  exact List.map_id cells

/-! ### Behavior of `filter` -/

theorem anyTermMatches_some (s : String) :
    anyTermMatches filter_terms (some s) =
      .ok (filter_terms.any (fun t => reSearchCI t s)) := rfl

theorem anyTermMatches_none :
    anyTermMatches filter_terms none = .error PyError.typeError := rfl

theorem tweetPasses_eq_of_some (r : ExtractedRecord) (ls ds : String)
    (hl : r.location = some ls) (hd : r.description = some ds) :
    tweetPasses r = .ok (locMatches r || descMatches r) := by
  unfold tweetPasses locMatches descMatches
  rw [hl, hd, anyTermMatches_some]
  by_cases h : filter_terms.any (fun t => reSearchCI t ls) = true
  · rw [h]
    show Except.ok true = _
    simp [h]
  · rw [Bool.not_eq_true] at h
    rw [h]
    show anyTermMatches filter_terms (some ds) = _
    rw [anyTermMatches_some]
    simp [h]

theorem tweetPasses_true_of_loc_match (r : ExtractedRecord) (ls : String)
    (hl : r.location = some ls)
    (hm : filter_terms.any (fun t => reSearchCI t ls) = true) :
    tweetPasses r = .ok true := by
  unfold tweetPasses
  rw [hl, anyTermMatches_some, hm]
  rfl

theorem tweetPasses_error_of_loc_none (r : ExtractedRecord) (h : r.location = none) :
    tweetPasses r = .error PyError.typeError := by
  unfold tweetPasses
  rw [h, anyTermMatches_none]
  rfl

theorem tweetPasses_error_of_desc_none (r : ExtractedRecord) (ls : String)
    (hl : r.location = some ls)
    (hm : filter_terms.any (fun t => reSearchCI t ls) = false)
    (hd : r.description = none) :
    tweetPasses r = .error PyError.typeError := by
  unfold tweetPasses
  rw [hl, anyTermMatches_some, hm]
  show anyTermMatches filter_terms r.description = _
  rw [hd, anyTermMatches_none]

theorem bind_ok_reduce {ε α β : Type} (x : α) (f : α → Except ε β) :
    (Except.ok x >>= f) = f x := rfl

theorem filter_cons (blob : Option String → Rat × Rat) (t : ExtractedRecord)
    (ts : List ExtractedRecord) :
    filter blob (t :: ts) = (do
      let passes ← tweetPasses t
      let saved_tweets ← filter blob ts
      pure (if passes then mkScored blob t :: saved_tweets else saved_tweets)) := rfl

theorem filter_eq_of_all_some (blob : Option String → Rat × Rat) :
    ∀ l : List ExtractedRecord,
      (∀ r ∈ l, r.location.isSome ∧ r.description.isSome) →
      filter blob l =
        .ok ((l.filter (fun r => locMatches r || descMatches r)).map (mkScored blob)) := by
  intro l
  induction l with
  | nil => intro _; rfl
  | cons t ts ih =>
    intro h
    obtain ⟨hl, hd⟩ := h t (List.mem_cons_self t ts)
    obtain ⟨ls, hls⟩ := Option.isSome_iff_exists.mp hl
    obtain ⟨ds, hds⟩ := Option.isSome_iff_exists.mp hd
    rw [filter_cons, tweetPasses_eq_of_some t ls ds hls hds,
      ih (fun r hr => h r (List.mem_cons_of_mem t hr))]
    by_cases hp : (locMatches t || descMatches t) = true
    · simp [hp, List.filter_cons, bind_ok_reduce]
    · rw [Bool.not_eq_true] at hp
      simp [hp, List.filter_cons, bind_ok_reduce]

/-- Concatenation of written lines, used to state the Writer output shape. -/
def strConcat : List String → String
  | [] => ""
  | s :: rest => s ++ strConcat rest

theorem foldl_append_eq_strConcat {α : Type} (f : α → String) (l : List α) :
    ∀ init : String, l.foldl (fun out x => out ++ f x) init = init ++ strConcat (l.map f) := by
  induction l with
  | nil => intro init; simp [strConcat, String.append_empty]
  | cons x l ih =>
    intro init
    simp only [List.foldl_cons, List.map_cons, strConcat]
    rw [ih, String.append_assoc]

theorem scraper_congr_of_agree (s1 s2 : String → Int → List RawStatus) (cfg : Config)
    (h : ∀ q, s1 q cfg.n = s2 q cfg.n) :
    ∀ (qs : List String) (init : Finset ExtractedRecord),
      qs.foldl (fun all_tweets search => addAll ((s1 search cfg.n).map get_data) all_tweets) init =
      qs.foldl (fun all_tweets search => addAll ((s2 search cfg.n).map get_data) all_tweets) init := by
  intro qs
  induction qs with
  | nil => intro init; rfl
  | cons q qs ih =>
    intro init
    simp only [List.foldl_cons]
    rw [h q, ih]

/-! ### Sample inputs used by the closed witnesses -/

/-- A constant sentiment model: every text scores (0, 0). -/
def blobZero : Option String → Rat × Rat := fun _ => (0, 0)

/-- A constant float renderer. -/
def numStrZero : Rat → String := fun _ => "0.0"

/-- A record whose location matches the filter term `dc`. -/
def sampleMatch : ExtractedRecord :=
  ⟨some "Mon Oct 01", some "Peggy", some "mar299", some "Washington DC", some "", some "hello there"⟩

/-- A record matching no filter term in either field. -/
def sampleNoMatch : ExtractedRecord :=
  ⟨some "Tue Oct 02", some "Ethan", some "ejb100", some "Seattle", some "just a person", some "hi"⟩

/-- A record with a missing location field. -/
def sampleLocNone : ExtractedRecord :=
  ⟨some "Wed Oct 03", some "Ann", some "a1", none, some "graduate student", some "ok"⟩

/-- A record with a non-matching location and a missing description. -/
def sampleDescNone : ExtractedRecord :=
  ⟨some "Thu Oct 04", some "Bea", some "b1", some "Seattle", none, some "ok"⟩

/-- A record with a matching location and a missing description. -/
def sampleMatchDescNone : ExtractedRecord :=
  ⟨some "Fri Oct 05", some "Cal", some "c1", some "dc metro area", none, some "yay"⟩

/-- A concrete raw status. -/
def sampleStatus : RawStatus :=
  ⟨⟨some "Sat Oct 06", some "Dee", some "d1", some "Georgetown", some "here"⟩, some "text"⟩

theorem filter_error_of_mem (blob : Option String → Rat × Rat) :
    ∀ l : List ExtractedRecord,
      (∃ r ∈ l, tweetPasses r = .error PyError.typeError) →
      filter blob l = .error PyError.typeError := by
  intro l
  induction l with
  | nil => rintro ⟨r, hr, _⟩; exact absurd hr (List.not_mem_nil r)
  | cons t ts ih =>
    rintro ⟨r, hr, herr⟩
    rw [filter_cons]
    cases hp : tweetPasses t with
    | error e =>
      cases e
      rfl
    | ok b =>
      rcases List.mem_cons.mp hr with rfl | hmem
      · rw [hp] at herr; cases herr
      · rw [ih ⟨r, hmem, herr⟩]
        rfl

/-! ## The claims -/

/-- C1: for every deduplicated record (with both profile fields present,
so that the matching calls return), `filter` includes it in its output
if and only if some filter term matches inside the location field or
some filter term matches inside the description field; the two checks
are independent ORs and a record with no match in either field is
excluded. -/
theorem C1_filter_double_or (blob : Option String → Rat × Rat)
    (tweets : List ExtractedRecord)
    (h : ∀ r ∈ tweets, r.location.isSome ∧ r.description.isSome) :
    filter blob tweets =
      .ok ((tweets.filter (fun r => locMatches r || descMatches r)).map (mkScored blob)) ∧
    ∀ out, filter blob tweets = .ok out →
      ∀ r ∈ tweets, (mkScored blob r ∈ out ↔ (locMatches r = true ∨ descMatches r = true)) := by
  have hmain := filter_eq_of_all_some blob tweets h
  refine ⟨hmain, ?_⟩
  intro out hout r hr
  rw [hmain] at hout
  injection hout with hout
  subst hout
  constructor
  · intro hm
    obtain ⟨a, ha, hae⟩ := List.mem_map.mp hm
    have hra : a = r := congrArg ScoredRow.extracted hae
    subst hra
    have := (List.mem_filter.mp ha).2
    simpa using this
  · intro hp
    apply List.mem_map.mpr
    exact ⟨r, List.mem_filter.mpr ⟨hr, by simpa using hp⟩, rfl⟩

theorem C1_filter_double_or_witness :
    filter blobZero [sampleMatch, sampleNoMatch] = .ok [mkScored blobZero sampleMatch] :=
  ((C1_filter_double_or blobZero [sampleMatch, sampleNoMatch] (by decide)).1).trans
    (congrArg Except.ok (by decide))

/-- C2: term matching is case-insensitive (folding the case of either the
term or the field does not change the outcome) and whole-word: the filter
term `dc` matches the field `I live in DC` but not `dcmetro`, and the
filter term `GU` matches `GU student` but not `argue`. -/
theorem C2_whole_word_case_insensitive :
    reSearchCI "dc" "I live in DC" = true ∧
    reSearchCI "dc" "dcmetro" = false ∧
    reSearchCI "GU" "GU student" = true ∧
    reSearchCI "GU" "argue" = false ∧
    "dc" ∈ filter_terms ∧ "GU" ∈ filter_terms ∧
    (∀ t s : List Nat, wbSearch t (s.map lowerCode) = wbSearch t s) ∧
    (∀ t s : List Nat, wbSearch (t.map lowerCode) s = wbSearch t s) :=
  ⟨by decide, by decide, by decide, by decide, by decide, by decide,
   wbSearch_map_lower_right, wbSearch_map_lower_left⟩

/-- C3: deduplication is by structural equality of the full field tuple:
two identical records inserted into the working set yield one member, two
records differing in at least one field yield two members, membership in
the scraped set is exactly membership in some query result, and an exact
duplicate across two different queries collapses to one member. -/
theorem C3_dedup_structural (r r' : ExtractedRecord) (hne : r ≠ r') :
    (addAll [r, r] ∅).card = 1 ∧
    (addAll [r, r'] ∅).card = 2 ∧
    (∀ (service : String → Int → List RawStatus) (cfg : Config)
        (queries : List String) (x : ExtractedRecord),
      x ∈ scraper service cfg queries ↔
        ∃ q ∈ queries, ∃ st ∈ service q cfg.n, get_data st = x) ∧
    (∀ (st : RawStatus) (cfg : Config) (q1 q2 : String),
      (scraper (fun _ _ => [st]) cfg [q1, q2]).card = 1) := by
  refine ⟨?_, ?_, ?_, ?_⟩
  · show (addAll (r :: [r]) ∅).card = 1
    simp [addAll]
  · show (addAll (r :: [r']) ∅).card = 1 + 1
    rw [show addAll (r :: [r']) ∅ = insert r' (insert r ∅) from rfl]
    rw [Finset.card_insert_of_not_mem (by simp [Ne.symm hne])]
    simp
  · intro service cfg queries x
    exact mem_scraper service cfg x queries
  · intro st cfg q1 q2
    rw [show scraper (fun _ _ => [st]) cfg [q1, q2] =
      addAll [get_data st] (addAll [get_data st] ∅) from rfl]
    simp [addAll]

theorem C3_dedup_structural_witness :
    (addAll [sampleMatch, sampleMatch] ∅).card = 1 ∧
    (addAll [sampleMatch, sampleNoMatch] ∅).card = 2 :=
  ⟨(C3_dedup_structural sampleMatch sampleNoMatch (by decide)).1,
   (C3_dedup_structural sampleMatch sampleNoMatch (by decide)).2.1⟩

/-- C4: every record produced by the Collector has exactly the six fields
`created_at, name, screen_name, location, description, text`, in that
fixed order, and the writer header starts with exactly the key order of
every row dictionary (the six record keys followed by the two score
keys). -/
theorem C4_fixed_field_order (st : RawStatus) (row : ScoredRow) :
    (get_data st).items.map Prod.fst =
      ["created_at", "name", "screen_name", "location", "description", "text"] ∧
    (get_data st).items.map Prod.fst = metadata_fields ++ ["text"] ∧
    row.items.map Prod.fst = fieldnames ∧
    fieldnames = ["created_at", "name", "screen_name", "location", "description",
      "text", "polarity", "subjectivity"] :=
  ⟨rfl, rfl, rfl, rfl⟩

/-- C5: for every (possibly empty) sequence of scored records the Writer
output is the fixed header row followed by exactly one serialized data
row per record in input order; each emitted row ends with a single
newline; the header row is present even for zero records. -/
theorem C5_writer_output (cfg : Config) (numStr : Rat → String) (rows : List ScoredRow) :
    (write_to_csv cfg numStr rows).2 =
      "created_at,name,screen_name,location,description,text,polarity,subjectivity\n" ++
        strConcat (rows.map (fun r => serializeRow (rowCells numStr r))) ∧
    (write_to_csv cfg numStr []).2 =
      "created_at,name,screen_name,location,description,text,polarity,subjectivity\n" ∧
    (∀ cells : List String, (serializeRow cells).data.getLast? = some '\n') := by
  have hheader : serializeRow fieldnames =
      "created_at,name,screen_name,location,description,text,polarity,subjectivity\n" := by
    decide
  refine ⟨?_, ?_, ?_⟩
  · show (rows.foldl (fun out row => out ++ serializeRow (rowCells numStr row))
      (serializeRow fieldnames)) = _
    rw [foldl_append_eq_strConcat, hheader]
  · show serializeRow fieldnames = _
    exact hheader
  · intro cells
    show (serializeRowChars (cells.map String.data)).getLast? = some '\n'
    unfold serializeRowChars
    rw [List.getLast?_concat]

/-- C6: a `None` location or description makes the pattern-match call on
that field raise `TypeError` (the `None` case is not guarded), and the
failure propagates and aborts the run instead of counting as no match:
a record with `None` location aborts the pipeline, and so does a record
whose location does not match and whose description is `None`. -/
theorem C6_none_field_raises (blob : Option String → Rat × Rat) (numStr : Rat → String)
    (cfg : Config) (order : List ExtractedRecord) (r : ExtractedRecord) :
    anyTermMatches filter_terms none = .error PyError.typeError ∧
    (r ∈ order → r.location = none →
      runPipeline blob numStr cfg order = .error PyError.typeError) ∧
    (∀ ls : String, r ∈ order → r.location = some ls →
      filter_terms.any (fun t => reSearchCI t ls) = false → r.description = none →
      runPipeline blob numStr cfg order = .error PyError.typeError) := by
  refine ⟨rfl, ?_, ?_⟩
  · intro hmem hl
    unfold runPipeline
    rw [filter_error_of_mem blob order ⟨r, hmem, tweetPasses_error_of_loc_none r hl⟩]
    rfl
  · intro ls hmem hl hm hd
    unfold runPipeline
    rw [filter_error_of_mem blob order ⟨r, hmem, tweetPasses_error_of_desc_none r ls hl hm hd⟩]
    rfl

theorem C6_none_field_raises_witness :
    runPipeline blobZero numStrZero defaultConfig [sampleLocNone] = .error PyError.typeError ∧
    runPipeline blobZero numStrZero defaultConfig [sampleDescNone] = .error PyError.typeError :=
  ⟨(C6_none_field_raises blobZero numStrZero defaultConfig [sampleLocNone] sampleLocNone).2.1
      (by simp) rfl,
   (C6_none_field_raises blobZero numStrZero defaultConfig [sampleDescNone] sampleDescNone).2.2
      "Seattle" (by simp) rfl (by decide) rfl⟩

/-- C7: an authentication failure at startup is caught: a failure message
is the only effect, the API handle is still constructed with both
rate-limit options, and `start_api` returns normally on every outcome of
the external call — authentication failure by itself never aborts the
run. -/
theorem C7_auth_failure_never_aborts (e : TweepError) (url : String) :
    start_api (.error e) = (⟨true, true⟩, LogMsg.apiNotConnected) ∧
    start_api (.ok url) = (⟨true, true⟩, LogMsg.apiConnected) ∧
    ∀ res : Except TweepError String, (start_api res).1 = ⟨true, true⟩ :=
  ⟨rfl, rfl, fun res => by cases res <;> rfl⟩

/-- C8: the CLI declares exactly two optional flags, `-number` / `-n` with
effective default 1000 and `-file` / `-f` with default `your_tweets.csv`;
the parsed `n` is the only item count the Collector passes to the
paginated search (two services agreeing at count `cfg.n` scrape
identically), and the parsed `f` is the path the Writer opens. -/
theorem C8_cli_flags :
    cliArgs.length = 2 ∧
    cliArgs = [⟨["-number", "-n"], "n", "1000"⟩, ⟨["-file", "-f"], "f", "your_tweets.csv"⟩] ∧
    parseArgs [] = { n := 1000, f := "your_tweets.csv" } ∧
    (∀ s1 s2 : String → Int → List RawStatus, ∀ (cfg : Config) (qs : List String),
      (∀ q, s1 q cfg.n = s2 q cfg.n) → scraper s1 cfg qs = scraper s2 cfg qs) ∧
    (∀ (cfg : Config) (numStr : Rat → String) (rows : List ScoredRow),
      (write_to_csv cfg numStr rows).1 = cfg.f) := by
  refine ⟨rfl, rfl, rfl, ?_, fun _ _ _ => rfl⟩
  intro s1 s2 cfg qs hagree
  unfold scraper
  exact scraper_congr_of_agree s1 s2 cfg hagree qs ∅

theorem C8_cli_flags_witness :
    parseArgs [] = { n := 1000, f := "your_tweets.csv" } ∧
    scraper (fun _ n => if n = 1000 then [sampleStatus] else []) defaultConfig ["q"] =
      scraper (fun _ _ => [sampleStatus]) defaultConfig ["q"] :=
  ⟨C8_cli_flags.2.2.1,
   C8_cli_flags.2.2.2.1 _ _ defaultConfig ["q"] (fun _ => by simp [defaultConfig])⟩

/-- C9 (amended): serializing a record as a CSV row with the Writer
configuration and re-parsing it yields, for each field, the field value
with `None` replaced by the empty string; in particular the round trip
is the identity on the field values whenever every field is present.
(The original claim, identity also on `None` fields, is refuted by
`C9_roundtrip_counterexample`.) -/
theorem C9_roundtrip_amended (r : ExtractedRecord) :
    parseRow (recordRow r) = (recordFields r).map (fun v => v.getD "") ∧
    ((∀ v ∈ recordFields r, v.isSome) →
      (parseRow (recordRow r)).map some = recordFields r) := by
  have hne : (recordFields r).map (fun v => v.getD "") ≠ [] := by
    simp [recordFields, ExtractedRecord.items]
  have hfirst : parseRow (recordRow r) = (recordFields r).map (fun v => v.getD "") :=
    parseRow_serializeRow _ hne
  refine ⟨hfirst, ?_⟩
  intro hall
  rw [hfirst, List.map_map]
  have hpt : ∀ v ∈ recordFields r, (some ∘ fun v => v.getD "") v = id v := by
    intro v hv
    cases v with
    | some a => rfl
    | none => exact absurd (hall none hv) (by simp)
  rw [List.map_congr_left hpt, List.map_id]

/-- C9: the claim as stated is false: for a record with a `None` location
the parsed row does not reproduce the field values (the `None` comes back
as the empty string). -/
theorem C9_roundtrip_counterexample :
    ¬ ((parseRow (recordRow sampleLocNone)).map some = recordFields sampleLocNone) := by
  decide

theorem C9_roundtrip_amended_witness :
    (parseRow (recordRow sampleMatch)).map some = recordFields sampleMatch :=
  (C9_roundtrip_amended sampleMatch).2 (by decide)

/-- C10: the two field checks short-circuit left to right: every record
whose location field is a string matched by some filter term is included
and scored, whatever its description field holds — in particular the
`None`-matching error of the description check is unreachable when the
location check succeeds. -/
theorem C10_shortcircuit (blob : Option String → Rat × Rat) (r : ExtractedRecord)
    (ls : String) (hl : r.location = some ls)
    (hm : filter_terms.any (fun t => reSearchCI t ls) = true) :
    tweetPasses r = .ok true ∧
    filter blob [r] = .ok [mkScored blob r] := by
  have h1 := tweetPasses_true_of_loc_match r ls hl hm
  refine ⟨h1, ?_⟩
  rw [filter_cons, h1]
  rfl

theorem C10_shortcircuit_witness :
    filter blobZero [sampleMatchDescNone] = .ok [mkScored blobZero sampleMatchDescNone] :=
  (C10_shortcircuit blobZero sampleMatchDescNone "dc metro area" rfl (by decide)).2

end TweetCSV
